import Mathlib

/-!
# PLIC driver of the qemu-virt RISC-V platform (`platform/qemu-virt-riscv/plic.c`)

A shallow embedding of the driver and the properties proved about it.

Modelling conventions.

* The constants of `platform/virt.h` (`PLIC_BASE_VIRT`, `NUM_IRQS`, `PLIC_HART_IDX`) are not
  part of `plic.c`; they are the fields of `Platform`.
* `riscv_current_hart()` is the argument `hart` of every operation.
* The device is a word store `Nat → Nat` indexed by byte address.  Every access of the driver is
  a 32-bit access at `PLIC_BASE_VIRT + 4 * k`, so two accesses either hit the same word or
  disjoint words.  Addresses are natural numbers: the MMIO window is assumed not to wrap around
  the pointer type.
* 32-bit values are natural numbers reduced `% 2 ^ 32`.
* A function pointer is a natural number, `0` being `NULL`; what the code behind a pointer does
  is given by an environment `HandlerCode`, an arbitrary transformer of the driver state.
-/

namespace Plic

/-- Constants supplied by `platform/virt.h`. -/
structure Platform where
  PLIC_BASE_VIRT : Nat
  NUM_IRQS : Nat
  PLIC_HART_IDX : Nat → Nat

/-- `#define PLIC_PRIORITY(irq) (PLIC_BASE_VIRT + 4 * (irq))` -/
def PLIC_PRIORITY (P : Platform) (irq : Nat) : Nat :=
  P.PLIC_BASE_VIRT + 4 * irq

/-- `#define PLIC_PENDING(irq) (PLIC_BASE_VIRT + 0x1000 + (4 * ((irq) / 32)))` -/
def PLIC_PENDING (P : Platform) (irq : Nat) : Nat :=
  P.PLIC_BASE_VIRT + 0x1000 + (4 * (irq / 32))

/-- `#define PLIC_ENABLE(irq, hart)
  (PLIC_BASE_VIRT + 0x2000 + (0x80 * PLIC_HART_IDX(hart)) + (4 * ((irq) / 32)))` -/
def PLIC_ENABLE (P : Platform) (irq hart : Nat) : Nat :=
  P.PLIC_BASE_VIRT + 0x2000 + (0x80 * P.PLIC_HART_IDX hart) + (4 * (irq / 32))

/-- `#define PLIC_THRESHOLD(hart) (PLIC_BASE_VIRT + 0x200000 + (0x1000 * PLIC_HART_IDX(hart)))` -/
def PLIC_THRESHOLD (P : Platform) (hart : Nat) : Nat :=
  P.PLIC_BASE_VIRT + 0x200000 + (0x1000 * P.PLIC_HART_IDX hart)

/-- `#define PLIC_COMPLETE(hart) (PLIC_BASE_VIRT + 0x200004 + (0x1000 * PLIC_HART_IDX(hart)))` -/
def PLIC_COMPLETE (P : Platform) (hart : Nat) : Nat :=
  P.PLIC_BASE_VIRT + 0x200004 + (0x1000 * P.PLIC_HART_IDX hart)

/-- `#define PLIC_CLAIM(hart) PLIC_COMPLETE(hart)` -/
def PLIC_CLAIM (P : Platform) (hart : Nat) : Nat :=
  PLIC_COMPLETE P hart

/-- One slot of `handlers[]`: a function pointer (`0` is `NULL`) and its argument. -/
structure int_handlers where
  handler : Nat
  arg : Nat
  deriving DecidableEq, Repr

/-- `enum handler_return`. -/
inductive handler_return where
  | INT_NO_RESCHEDULE
  | INT_RESCHEDULE
  deriving DecidableEq, Repr

/-- The values of `status_t` the driver returns. -/
inductive status_t where
  | NO_ERROR
  | ERR_NOT_SUPPORTED
  deriving DecidableEq, Repr

/-- Driver state: the device registers and `static ... handlers[NUM_IRQS]`. -/
structure Machine (n : Nat) where
  regs : Nat → Nat
  handlers : Fin n → int_handlers

/-- What the code behind a function pointer does when called with an argument: it returns a hint
and may change the driver state in any way. -/
abbrev HandlerCode (n : Nat) : Type :=
  Nat → Nat → Machine n → handler_return × Machine n

/-- Observable actions of `riscv_platform_irq`, in program order. -/
inductive Event where
  | reg_read (addr val : Nat)
  | reg_write (addr val : Nat)
  | THREAD_STATS_INC_interrupts
  | KEVLOG_IRQ_ENTER (vector : Nat)
  | KEVLOG_IRQ_EXIT (vector : Nat)
  | handler_call (handler arg : Nat) (ret : handler_return)
  deriving DecidableEq, Repr

/-- Value of `*REG32(addr)` as an rvalue: a 32-bit load. -/
def REG32_read (regs : Nat → Nat) (addr : Nat) : Nat :=
  regs addr % 2 ^ 32

/-- Effect of `*REG32(addr) = val`: a 32-bit store. -/
def REG32_write (regs : Nat → Nat) (addr val : Nat) : Nat → Nat :=
  fun a => if a = addr then val % 2 ^ 32 else regs a

/-- Bitwise complement `~x` of a 32-bit value. -/
def not32 (x : Nat) : Nat :=
  (2 ^ 32 - 1) ^^^ (x % 2 ^ 32)

/-- Shift `x << k` with 32-bit wrap-around. -/
def shl32 (x k : Nat) : Nat :=
  (x <<< k) % 2 ^ 32

/-- Read of `handlers[vector]`; `none` when the index is outside the array. -/
def handlers_at {n : Nat} (m : Machine n) (vector : Nat) : Option int_handlers :=
  if h : vector < n then some (m.handlers ⟨vector, h⟩) else none

/-- Store to `handlers[vector].handler` for an index inside the array. -/
def set_handler {n : Nat} (m : Machine n) (vector : Fin n) (handler : Nat) : Machine n :=
  { m with handlers := fun i =>
      if i = vector then { m.handlers i with handler := handler } else m.handlers i }

/-- Store to `handlers[vector].arg` for an index inside the array. -/
def set_arg {n : Nat} (m : Machine n) (vector : Fin n) (arg : Nat) : Machine n :=
  { m with handlers := fun i =>
      if i = vector then { m.handlers i with arg := arg } else m.handlers i }

/-- The zero-initialised static table. -/
def handlers_init (n : Nat) : Fin n → int_handlers :=
  fun _ => { handler := 0, arg := 0 }

/-- Loop body of `plic_early_init` for index `i`. -/
def plic_early_init_body (P : Platform) (hart : Nat) (regs : Nat → Nat) (i : Nat) : Nat → Nat :=
  let r1 := REG32_write regs (PLIC_ENABLE P i hart)
    (REG32_read regs (PLIC_ENABLE P i hart) &&& not32 (shl32 1 (i % 32)))
  REG32_write r1 (PLIC_PRIORITY P i) 1

/-- Device registers after `plic_early_init`: the loop `for (i = 1; i < NUM_IRQS; i++)` followed
by the threshold store. -/
def plic_early_init_regs (P : Platform) (hart : Nat) (regs : Nat → Nat) : Nat → Nat :=
  let r := (List.range' 1 (P.NUM_IRQS - 1)).foldl (plic_early_init_body P hart) regs
  REG32_write r (PLIC_THRESHOLD P hart) 0

/-- `void plic_early_init(void)` -/
def plic_early_init (P : Platform) (hart : Nat) (m : Machine P.NUM_IRQS) : Machine P.NUM_IRQS :=
  { m with regs := plic_early_init_regs P hart m.regs }

/-- `status_t mask_interrupt(unsigned int vector)` -/
def mask_interrupt (P : Platform) (hart : Nat) (vector : Nat) (m : Machine P.NUM_IRQS) :
    status_t × Machine P.NUM_IRQS :=
  let w := REG32_read m.regs (PLIC_ENABLE P vector hart) &&& not32 (shl32 1 (vector % 32))
  (status_t.NO_ERROR, { m with regs := REG32_write m.regs (PLIC_ENABLE P vector hart) w })

/-- `status_t unmask_interrupt(unsigned int vector)` -/
def unmask_interrupt (P : Platform) (hart : Nat) (vector : Nat) (m : Machine P.NUM_IRQS) :
    status_t × Machine P.NUM_IRQS :=
  let w := REG32_read m.regs (PLIC_ENABLE P vector hart) ||| shl32 1 (vector % 32)
  (status_t.NO_ERROR, { m with regs := REG32_write m.regs (PLIC_ENABLE P vector hart) w })

/-- Modelled from the spec: `DEBUG_ASSERT` (defined in `assert.h`, not in `plic.c`) fails fatally
when its condition is false.  `Except.error s` is a fatal stop raised in state `s`. -/
def DEBUG_ASSERT {σ : Type} (cond : Bool) (s : σ) : Except σ Unit :=
  if cond then Except.ok () else Except.error s

/-- The statement `handlers[vector].handler = handler`; `none` when the index is outside the
array (the store is then undefined behaviour). -/
def store_handler {n : Nat} (m : Machine n) (vector handler : Nat) : Option (Machine n) :=
  if h : vector < n then some (set_handler m ⟨vector, h⟩ handler) else none

/-- The statement `handlers[vector].arg = arg`; `none` when the index is outside the array (the
store is then undefined behaviour). -/
def store_arg {n : Nat} (m : Machine n) (vector arg : Nat) : Option (Machine n) :=
  if h : vector < n then some (set_arg m ⟨vector, h⟩ arg) else none

/-- The ways a call of `register_int_handler` can end without returning: the fatal stop of a
failed assertion, raised in state `s`, or a store outside `handlers[]`. -/
inductive Stop (n : Nat) where
  | assert_failed (s : Machine n)
  | store_outside_table

/-- `void register_int_handler(unsigned int vector, int_handler handler, void *arg)`: the
assertion, then the two stores, neither of which checks its index.  `LTRACEF` prints nothing
since `LOCAL_TRACE` is 0. -/
def register_int_handler (P : Platform) (vector handler arg : Nat) (m : Machine P.NUM_IRQS) :
    Except (Stop P.NUM_IRQS) (Machine P.NUM_IRQS) :=
  match DEBUG_ASSERT (decide (vector < P.NUM_IRQS)) m with
  | Except.error s => Except.error (Stop.assert_failed s)
  | Except.ok () =>
    match store_handler m vector handler with
    | none => Except.error Stop.store_outside_table
    | some m1 =>
      match store_arg m1 vector arg with
      | none => Except.error Stop.store_outside_table
      | some m2 => Except.ok m2

/-- `enum handler_return riscv_platform_irq(void)`.  The result is the returned hint, the final
state and the ordered list of actions; `none` when `handlers[vector]` is read outside the
array. -/
def riscv_platform_irq (P : Platform) (code : HandlerCode P.NUM_IRQS) (hart : Nat)
    (m : Machine P.NUM_IRQS) : Option (handler_return × Machine P.NUM_IRQS × List Event) :=
  let vector := REG32_read m.regs (PLIC_CLAIM P hart)
  let t0 := [Event.reg_read (PLIC_CLAIM P hart) vector]
  if vector = 0 then
    some (handler_return.INT_NO_RESCHEDULE, m, t0)
  else
    let t1 := t0 ++ [Event.THREAD_STATS_INC_interrupts, Event.KEVLOG_IRQ_ENTER vector]
    match handlers_at m vector with
    | none => none
    | some e =>
      let r : handler_return × Machine P.NUM_IRQS × List Event :=
        if e.handler ≠ 0 then
          let c := code e.handler e.arg m
          (c.1, c.2, t1 ++ [Event.handler_call e.handler e.arg c.1])
        else
          (handler_return.INT_NO_RESCHEDULE, m, t1)
      let m3 : Machine P.NUM_IRQS :=
        { r.2.1 with regs := REG32_write r.2.1.regs (PLIC_COMPLETE P hart) vector }
      some (r.1, m3,
        r.2.2 ++ [Event.reg_write (PLIC_COMPLETE P hart) vector, Event.KEVLOG_IRQ_EXIT vector])

/-- The handler invocations recorded in a trace, as (pointer, argument) pairs. -/
def handler_calls : List Event → List (Nat × Nat)
  | [] => []
  | Event.handler_call h a _ :: t => (h, a) :: handler_calls t
  | _ :: t => handler_calls t

/-- The register stores recorded in a trace, as (address, value) pairs. -/
def reg_writes : List Event → List (Nat × Nat)
  | [] => []
  | Event.reg_write a v :: t => (a, v) :: reg_writes t
  | _ :: t => reg_writes t

/-- The statistics and kernel-event-log actions recorded in a trace. -/
def stat_trace_events : List Event → List Event
  | [] => []
  | Event.THREAD_STATS_INC_interrupts :: t =>
      Event.THREAD_STATS_INC_interrupts :: stat_trace_events t
  | Event.KEVLOG_IRQ_ENTER v :: t => Event.KEVLOG_IRQ_ENTER v :: stat_trace_events t
  | Event.KEVLOG_IRQ_EXIT v :: t => Event.KEVLOG_IRQ_EXIT v :: stat_trace_events t
  | _ :: t => stat_trace_events t

/-- Whether `vector` is enabled for `hart`: its bit in the enable bank. -/
def irq_enabled (P : Platform) (hart : Nat) (regs : Nat → Nat) (vector : Nat) : Bool :=
  (REG32_read regs (PLIC_ENABLE P vector hart)).testBit (vector % 32)

/-- A platform with 64 vectors, base address `0x0c000000` and `PLIC_HART_IDX(hart) = 2*hart+1`,
used for the concrete instances below. -/
def virt64 : Platform :=
  { PLIC_BASE_VIRT := 0x0c000000, NUM_IRQS := 64, PLIC_HART_IDX := fun hart => 2 * hart + 1 }

/-- Handler code for the concrete instances: every handler asks for a reschedule and leaves the
driver state alone. -/
def code_resched : HandlerCode 64 :=
  fun _ _ m => (handler_return.INT_RESCHEDULE, m)

/-- A state whose claim register for hart 0 reads `v` and whose table holds `e` at index 5 and is
empty elsewhere. -/
def machine_claiming (v : Nat) (e : int_handlers) : Machine virt64.NUM_IRQS :=
  { regs := fun a => if a = PLIC_CLAIM virt64 0 then v else 0,
    handlers := fun i => if i.val = 5 then e else { handler := 0, arg := 0 } }

/-- A platform with more vectors than the priority array has room for below the enable banks:
`PLIC_PRIORITY(2048)` is the first enable word of hart context 0. -/
def wide_platform : Platform :=
  { PLIC_BASE_VIRT := 0x0c000000, NUM_IRQS := 2049, PLIC_HART_IDX := fun _ => 0 }

/-- `status_t platform_pci_int_to_vector(unsigned int pci_int, unsigned int *vector)`.  The
argument `vector` is the content of `*vector` before the call; the result is the status, the
content of `*vector` after the call and the driver state. -/
def platform_pci_int_to_vector {n : Nat} (pci_int : Nat) (vector : Nat) (m : Machine n) :
    status_t × Nat × Machine n :=
  let vector' := pci_int
  (status_t.NO_ERROR, vector', m)

/-- `status_t platform_allocate_interrupts(size_t count, uint align_log2, bool msi,
unsigned int *vector)`.  The argument `vector` is the content of `*vector` before the call; the
result is the status, the content of `*vector` after the call and the driver state. -/
def platform_allocate_interrupts {n : Nat} (count align_log2 : Nat) (msi : Bool) (vector : Nat)
    (m : Machine n) : status_t × Nat × Machine n :=
  (status_t.ERR_NOT_SUPPORTED, vector, m)

/-- `status_t platform_compute_msi_values(unsigned int vector, unsigned int cpu, bool edge,
uint64_t *msi_address_out, uint16_t *msi_data_out)`.  The last two arguments are the contents of
the output cells before the call; the result is the status, their contents after the call and the
driver state. -/
def platform_compute_msi_values {n : Nat} (vector cpu : Nat) (edge : Bool)
    (msi_address_out msi_data_out : Nat) (m : Machine n) : status_t × Nat × Nat × Machine n :=
  (status_t.ERR_NOT_SUPPORTED, msi_address_out, msi_data_out, m)

/-- The word transformer `x ↦ (x & A) | B`: every store of `plic_early_init` acts on the word it
hits as one of these. -/
def word_update (A B : Nat) (x : Nat) : Nat :=
  (x &&& A) ||| B

/-! ## Bit-level and register-store lemmas -/

theorem testBit_shl32_one (k i : Nat) :
    (shl32 1 (k % 32)).testBit i = decide (k % 32 = i) := by
  have hk : k % 32 < 32 := Nat.mod_lt _ (by norm_num)
  unfold shl32
  rw [Nat.one_shiftLeft, Nat.testBit_mod_two_pow, Nat.testBit_two_pow]
  by_cases h : k % 32 = i
  · have : i < 32 := by omega
    simp [h, this]
  · simp [h]

theorem testBit_not32 (x i : Nat) :
    (not32 x).testBit i = (decide (i < 32) && !x.testBit i) := by
  unfold not32
  rw [Nat.testBit_xor, Nat.testBit_two_pow_sub_one, Nat.testBit_mod_two_pow]
  by_cases h : i < 32 <;> simp [h]

theorem testBit_mod_word (x i : Nat) :
    (x % 4294967296).testBit i = (decide (i < 32) && x.testBit i) := by
  have h := Nat.testBit_mod_two_pow x 32 i
  norm_num at h
  simpa using h

theorem REG32_read_write_same (regs : Nat → Nat) (a x : Nat) :
    REG32_read (REG32_write regs a x) a = x % 2 ^ 32 := by
  simp [REG32_read, REG32_write]

theorem REG32_read_write_other (regs : Nat → Nat) (a b x : Nat) (h : b ≠ a) :
    REG32_read (REG32_write regs a x) b = REG32_read regs b := by
  simp [REG32_read, REG32_write, h]

theorem REG32_write_write (regs : Nat → Nat) (a x y : Nat) :
    REG32_write (REG32_write regs a x) a y = REG32_write regs a y := by
  funext b
  by_cases h : b = a <;> simp [REG32_write, h]

theorem REG32_write_congr (regs : Nat → Nat) (a x y : Nat) (h : x % 2 ^ 32 = y % 2 ^ 32) :
    REG32_write regs a x = REG32_write regs a y := by
  funext b
  unfold REG32_write
  by_cases hb : b = a
  · rw [if_pos hb, if_pos hb]
    exact h
  · rw [if_neg hb, if_neg hb]

theorem mask_word_idem (r k : Nat) :
    (((r &&& not32 (shl32 1 (k % 32))) % 2 ^ 32) &&& not32 (shl32 1 (k % 32))) % 2 ^ 32
      = (r &&& not32 (shl32 1 (k % 32))) % 2 ^ 32 := by
  apply Nat.eq_of_testBit_eq
  intro i
  simp only [Nat.testBit_mod_two_pow, Nat.testBit_and, testBit_not32, testBit_shl32_one]
  by_cases h1 : i < 32 <;> by_cases h2 : k % 32 = i <;> simp [h1, h2]

theorem unmask_word_idem (r k : Nat) :
    (((r ||| shl32 1 (k % 32)) % 2 ^ 32) ||| shl32 1 (k % 32)) % 2 ^ 32
      = (r ||| shl32 1 (k % 32)) % 2 ^ 32 := by
  apply Nat.eq_of_testBit_eq
  intro i
  simp only [Nat.testBit_mod_two_pow, Nat.testBit_or, testBit_shl32_one]
  by_cases h1 : i < 32 <;> by_cases h2 : k % 32 = i <;> simp [h1, h2]
/-! ## Dispatch -/

/-- C1: when the claim register reads a vector `v` with `0 < v < NUM_IRQS` whose table entry holds
a non-null handler `H` with context `C`, one call of `riscv_platform_irq` runs `H` exactly once
with argument `C`, stores `v` to the complete register of the current hart exactly once (its only
register store), and returns the hint `H` returned. -/
theorem C1_dispatch_runs_registered_handler (P : Platform) (code : HandlerCode P.NUM_IRQS)
    (hart : Nat) (m : Machine P.NUM_IRQS) (v H C : Nat)
    (hv0 : 0 < v) (hv : v < P.NUM_IRQS) (hH : H ≠ 0)
    (htab : m.handlers ⟨v, hv⟩ = { handler := H, arg := C })
    (hclaim : REG32_read m.regs (PLIC_CLAIM P hart) = v) :
    ∃ t, riscv_platform_irq P code hart m =
        some ((code H C m).1,
          { (code H C m).2 with
            regs := REG32_write (code H C m).2.regs (PLIC_COMPLETE P hart) v }, t) ∧
      handler_calls t = [(H, C)] ∧
      Event.handler_call H C (code H C m).1 ∈ t ∧
      reg_writes t = [(PLIC_COMPLETE P hart, v)] := by
  have hne : ¬ v = 0 := by omega
  refine ⟨[Event.reg_read (PLIC_CLAIM P hart) v, Event.THREAD_STATS_INC_interrupts,
    Event.KEVLOG_IRQ_ENTER v, Event.handler_call H C (code H C m).1,
    Event.reg_write (PLIC_COMPLETE P hart) v, Event.KEVLOG_IRQ_EXIT v], ?_, ?_, ?_, ?_⟩
  · simp [riscv_platform_irq, hclaim, hne, handlers_at, hv, htab, hH]
  · simp [handler_calls]
  · simp
  · simp [reg_writes]

/-- Scenario A as an instance of C1: 64 vectors, vector 5 registered with a handler that asks for
a reschedule, claim reads 5. -/
theorem C1_dispatch_runs_registered_handler_witness :
    ∃ t, riscv_platform_irq virt64 code_resched 0 (machine_claiming 5 ⟨7, 9⟩) =
        some ((code_resched 7 9 (machine_claiming 5 ⟨7, 9⟩)).1,
          { (code_resched 7 9 (machine_claiming 5 ⟨7, 9⟩)).2 with
            regs := REG32_write (code_resched 7 9 (machine_claiming 5 ⟨7, 9⟩)).2.regs
              (PLIC_COMPLETE virt64 0) 5 }, t) ∧
      handler_calls t = [(7, 9)] ∧
      Event.handler_call 7 9 (code_resched 7 9 (machine_claiming 5 ⟨7, 9⟩)).1 ∈ t ∧
      reg_writes t = [(PLIC_COMPLETE virt64 0, 5)] :=
  C1_dispatch_runs_registered_handler virt64 code_resched 0 (machine_claiming 5 ⟨7, 9⟩) 5 7 9
    (by decide) (by decide) (by decide) (by simp [machine_claiming])
    (by simp [REG32_read, machine_claiming])

/-- C2: when the claim register reads 0, `riscv_platform_irq` returns `INT_NO_RESCHEDULE`, leaves
the whole driver state (registers and table) as it was, and its only action is the claim read: no
handler call, no register store, no statistics or event-log action. -/
theorem C2_dispatch_nothing_pending (P : Platform) (code : HandlerCode P.NUM_IRQS)
    (hart : Nat) (m : Machine P.NUM_IRQS)
    (hclaim : REG32_read m.regs (PLIC_CLAIM P hart) = 0) :
    riscv_platform_irq P code hart m =
        some (handler_return.INT_NO_RESCHEDULE, m, [Event.reg_read (PLIC_CLAIM P hart) 0]) ∧
      handler_calls [Event.reg_read (PLIC_CLAIM P hart) 0] = [] ∧
      reg_writes [Event.reg_read (PLIC_CLAIM P hart) 0] = [] ∧
      stat_trace_events [Event.reg_read (PLIC_CLAIM P hart) 0] = [] := by
  refine ⟨?_, ?_, ?_, ?_⟩
  · simp [riscv_platform_irq, hclaim]
  · simp [handler_calls]
  · simp [reg_writes]
  · simp [stat_trace_events]

/-- Scenario B as an instance of C2: the claim reads 0 while the table holds a handler. -/
theorem C2_dispatch_nothing_pending_witness :
    riscv_platform_irq virt64 code_resched 0 (machine_claiming 0 ⟨7, 9⟩) =
        some (handler_return.INT_NO_RESCHEDULE, machine_claiming 0 ⟨7, 9⟩,
          [Event.reg_read (PLIC_CLAIM virt64 0) 0]) ∧
      handler_calls [Event.reg_read (PLIC_CLAIM virt64 0) 0] = [] ∧
      reg_writes [Event.reg_read (PLIC_CLAIM virt64 0) 0] = [] ∧
      stat_trace_events [Event.reg_read (PLIC_CLAIM virt64 0) 0] = [] :=
  C2_dispatch_nothing_pending virt64 code_resched 0 (machine_claiming 0 ⟨7, 9⟩)
    (by simp [REG32_read, machine_claiming])

/-- C3: when the claim register reads a vector `v` with `0 < v < NUM_IRQS` whose table entry has
a null handler, `riscv_platform_irq` calls no handler, returns `INT_NO_RESCHEDULE`, and still
stores `v` to the complete register of the current hart exactly once. -/
theorem C3_dispatch_unregistered_vector (P : Platform) (code : HandlerCode P.NUM_IRQS)
    (hart : Nat) (m : Machine P.NUM_IRQS) (v : Nat)
    (hv0 : 0 < v) (hv : v < P.NUM_IRQS)
    (htab : (m.handlers ⟨v, hv⟩).handler = 0)
    (hclaim : REG32_read m.regs (PLIC_CLAIM P hart) = v) :
    ∃ t, riscv_platform_irq P code hart m =
        some (handler_return.INT_NO_RESCHEDULE,
          { m with regs := REG32_write m.regs (PLIC_COMPLETE P hart) v }, t) ∧
      handler_calls t = [] ∧
      reg_writes t = [(PLIC_COMPLETE P hart, v)] := by
  have hne : ¬ v = 0 := by omega
  refine ⟨[Event.reg_read (PLIC_CLAIM P hart) v, Event.THREAD_STATS_INC_interrupts,
    Event.KEVLOG_IRQ_ENTER v, Event.reg_write (PLIC_COMPLETE P hart) v,
    Event.KEVLOG_IRQ_EXIT v], ?_, ?_, ?_⟩
  · simp [riscv_platform_irq, hclaim, hne, handlers_at, hv, htab]
  · simp [handler_calls]
  · simp [reg_writes]

/-- An instance of C3: the claim reads 6 while only vector 5 has a handler. -/
theorem C3_dispatch_unregistered_vector_witness :
    ∃ t, riscv_platform_irq virt64 code_resched 0 (machine_claiming 6 ⟨7, 9⟩) =
        some (handler_return.INT_NO_RESCHEDULE,
          { machine_claiming 6 ⟨7, 9⟩ with
            regs := REG32_write (machine_claiming 6 ⟨7, 9⟩).regs (PLIC_COMPLETE virt64 0) 6 },
          t) ∧
      handler_calls t = [] ∧
      reg_writes t = [(PLIC_COMPLETE virt64 0, 6)] :=
  C3_dispatch_unregistered_vector virt64 code_resched 0 (machine_claiming 6 ⟨7, 9⟩) 6
    (by decide) (by decide) (by simp [machine_claiming])
    (by simp [REG32_read, machine_claiming])

/-- C4 as stated fails for a claim value outside the table: with 64 vectors and a claim register
reading 64 (non-zero), `handlers[64]` lies outside the array, so the call has no defined trace. -/
theorem C4_claim_outside_table_counterexample :
    REG32_read (machine_claiming 64 ⟨7, 9⟩).regs (PLIC_CLAIM virt64 0) = 64 ∧
      riscv_platform_irq virt64 code_resched 0 (machine_claiming 64 ⟨7, 9⟩) = none := by
  constructor
  · simp [REG32_read, machine_claiming]
  · simp [riscv_platform_irq, REG32_read, machine_claiming, handlers_at, virt64]

/-- C4 (amended): for every claim value `v` with `0 < v < NUM_IRQS`, the actions of one call of
`riscv_platform_irq` are, in order: the claim read, the interrupt-counter increment, trace-enter
of `v`, the handler call (present exactly when the entry's handler is non-null), the store of `v`
to the complete register, trace-exit of `v`.  The store is the only one, comes after the handler
call, and the complete register then holds exactly `v`. -/
theorem C4_dispatch_event_order (P : Platform) (code : HandlerCode P.NUM_IRQS)
    (hart : Nat) (m : Machine P.NUM_IRQS) (v : Nat)
    (hv0 : 0 < v) (hv : v < P.NUM_IRQS)
    (hclaim : REG32_read m.regs (PLIC_CLAIM P hart) = v) :
    ∃ r m', riscv_platform_irq P code hart m =
        some (r, m',
          [Event.reg_read (PLIC_CLAIM P hart) v, Event.THREAD_STATS_INC_interrupts,
            Event.KEVLOG_IRQ_ENTER v] ++
          (if (m.handlers ⟨v, hv⟩).handler ≠ 0 then
            [Event.handler_call (m.handlers ⟨v, hv⟩).handler (m.handlers ⟨v, hv⟩).arg
              (code (m.handlers ⟨v, hv⟩).handler (m.handlers ⟨v, hv⟩).arg m).1]
           else []) ++
          [Event.reg_write (PLIC_COMPLETE P hart) v, Event.KEVLOG_IRQ_EXIT v]) ∧
      m'.regs (PLIC_COMPLETE P hart) = v := by
  have hne : ¬ v = 0 := by omega
  have hlt : v < 4294967296 := by
    rw [← hclaim]
    exact Nat.mod_lt _ (by norm_num)
  by_cases hh : (m.handlers ⟨v, hv⟩).handler = 0
  · exact ⟨handler_return.INT_NO_RESCHEDULE,
      { m with regs := REG32_write m.regs (PLIC_COMPLETE P hart) v },
      by simp [riscv_platform_irq, hclaim, hne, handlers_at, hv, hh],
      by simp [REG32_write, hlt]⟩
  · exact ⟨(code (m.handlers ⟨v, hv⟩).handler (m.handlers ⟨v, hv⟩).arg m).1,
      { (code (m.handlers ⟨v, hv⟩).handler (m.handlers ⟨v, hv⟩).arg m).2 with
        regs := REG32_write (code (m.handlers ⟨v, hv⟩).handler (m.handlers ⟨v, hv⟩).arg m).2.regs
          (PLIC_COMPLETE P hart) v },
      by simp [riscv_platform_irq, hclaim, hne, handlers_at, hv, hh],
      by simp [REG32_write, hlt]⟩

/-- An instance of C4 (amended): claim reads 5, vector 5 has a handler. -/
theorem C4_dispatch_event_order_witness :
    ∃ r m', riscv_platform_irq virt64 code_resched 0 (machine_claiming 5 ⟨7, 9⟩) =
        some (r, m',
          [Event.reg_read (PLIC_CLAIM virt64 0) 5, Event.THREAD_STATS_INC_interrupts,
            Event.KEVLOG_IRQ_ENTER 5] ++
          (if ((machine_claiming 5 ⟨7, 9⟩).handlers ⟨5, by decide⟩).handler ≠ 0 then
            [Event.handler_call ((machine_claiming 5 ⟨7, 9⟩).handlers ⟨5, by decide⟩).handler
              ((machine_claiming 5 ⟨7, 9⟩).handlers ⟨5, by decide⟩).arg
              (code_resched ((machine_claiming 5 ⟨7, 9⟩).handlers ⟨5, by decide⟩).handler
                ((machine_claiming 5 ⟨7, 9⟩).handlers ⟨5, by decide⟩).arg
                (machine_claiming 5 ⟨7, 9⟩)).1]
           else []) ++
          [Event.reg_write (PLIC_COMPLETE virt64 0) 5, Event.KEVLOG_IRQ_EXIT 5]) ∧
      m'.regs (PLIC_COMPLETE virt64 0) = 5 :=
  C4_dispatch_event_order virt64 code_resched 0 (machine_claiming 5 ⟨7, 9⟩) 5
    (by decide) (by decide) (by simp [REG32_read, machine_claiming])

/-! ## Handler table -/

/-- C5: `register_int_handler` stops fatally, in its assertion, exactly when
`vector ≥ NUM_IRQS`, and the fatal stop is raised in the unchanged state, before either store to
the table; it returns exactly when `vector < NUM_IRQS`; and in no case does a store land outside
`handlers[]`. -/
theorem C5_register_bounds (P : Platform) (vector handler arg : Nat) (m : Machine P.NUM_IRQS) :
    (register_int_handler P vector handler arg m = Except.error (Stop.assert_failed m) ↔
        P.NUM_IRQS ≤ vector) ∧
      ((∃ m', register_int_handler P vector handler arg m = Except.ok m') ↔
        vector < P.NUM_IRQS) ∧
      register_int_handler P vector handler arg m ≠ Except.error Stop.store_outside_table := by
  by_cases h : vector < P.NUM_IRQS
  · have hn : ¬ P.NUM_IRQS ≤ vector := by omega
    simp [register_int_handler, DEBUG_ASSERT, store_handler, store_arg, h, hn]
  · have hn : P.NUM_IRQS ≤ vector := by omega
    simp [register_int_handler, DEBUG_ASSERT, h, hn]

/-- Scenario C: with 64 vectors, `register_int_handler(70, …)` ends in the fatal stop of the
assertion, raised in the state the call started in. -/
theorem register_vector_70_asserts :
    register_int_handler virt64 70 7 9 (machine_claiming 0 ⟨7, 9⟩) =
      Except.error (Stop.assert_failed (machine_claiming 0 ⟨7, 9⟩)) := by
  simp [register_int_handler, DEBUG_ASSERT, virt64]

/-- Without the assertion the two stores of `register_int_handler` do not stop an index outside
the table: the first store is then outside `handlers[]`. -/
theorem stores_alone_leave_the_table (P : Platform) (vector handler : Nat)
    (m : Machine P.NUM_IRQS) :
    store_handler m vector handler = none ↔ P.NUM_IRQS ≤ vector := by
  by_cases h : vector < P.NUM_IRQS
  · have hn : ¬ P.NUM_IRQS ≤ vector := by omega
    simp [store_handler, h, hn]
  · have hn : P.NUM_IRQS ≤ vector := by omega
    simp [store_handler, h, hn]

/-- C6: for `v < NUM_IRQS`, `register_int_handler v h c` succeeds; afterwards `handlers[v]` is
exactly `(h, c)` whatever it held before, every other slot reads as before, and the device
registers are untouched.  In the zero-initialised table every slot has a null handler. -/
theorem C6_register_lookup (P : Platform) (v h c : Nat) (m : Machine P.NUM_IRQS)
    (hv : v < P.NUM_IRQS) :
    ∃ m', register_int_handler P v h c m = Except.ok m' ∧
      handlers_at m' v = some { handler := h, arg := c } ∧
      (∀ w, w ≠ v → handlers_at m' w = handlers_at m w) ∧
      m'.regs = m.regs ∧
      (∀ w : Fin P.NUM_IRQS, handlers_init P.NUM_IRQS w = { handler := 0, arg := 0 }) := by
  refine ⟨set_arg (set_handler m ⟨v, hv⟩ h) ⟨v, hv⟩ c, ?_, ?_, ?_, ?_, ?_⟩
  · simp [register_int_handler, DEBUG_ASSERT, store_handler, store_arg, hv]
  · simp [handlers_at, hv, set_arg, set_handler]
  · intro w hw
    by_cases hwn : w < P.NUM_IRQS
    · simp [handlers_at, hwn, set_arg, set_handler, Fin.ext_iff, hw]
    · simp [handlers_at, hwn]
  · simp [set_arg, set_handler]
  · intro w
    rfl

/-- An instance of C6: registering vector 5 over an existing entry. -/
theorem C6_register_lookup_witness :
    ∃ m', register_int_handler virt64 5 11 13 (machine_claiming 0 ⟨7, 9⟩) = Except.ok m' ∧
      handlers_at m' 5 = some { handler := 11, arg := 13 } ∧
      (∀ w, w ≠ 5 → handlers_at m' w = handlers_at (machine_claiming 0 ⟨7, 9⟩) w) ∧
      m'.regs = (machine_claiming 0 ⟨7, 9⟩).regs ∧
      (∀ w : Fin virt64.NUM_IRQS, handlers_init virt64.NUM_IRQS w = { handler := 0, arg := 0 }) :=
  C6_register_lookup virt64 5 11 13 (machine_claiming 0 ⟨7, 9⟩) (by decide)

/-! ## Mask and unmask -/

/-- C7: on a fixed hart, `mask_interrupt v` twice gives the same state as once, `unmask_interrupt
v` twice gives the same state as once, and after `mask_interrupt v` followed by
`unmask_interrupt v` the enable bit of `v` is set. -/
theorem C7_mask_unmask_idempotent (P : Platform) (hart v : Nat) (m : Machine P.NUM_IRQS) :
    (mask_interrupt P hart v (mask_interrupt P hart v m).2).2 = (mask_interrupt P hart v m).2 ∧
      (unmask_interrupt P hart v (unmask_interrupt P hart v m).2).2 =
        (unmask_interrupt P hart v m).2 ∧
      irq_enabled P hart (unmask_interrupt P hart v (mask_interrupt P hart v m).2).2.regs v
        = true := by
  refine ⟨?_, ?_, ?_⟩
  · simp only [mask_interrupt, REG32_read_write_same, REG32_write_write]
    rw [REG32_write_congr _ _ _ _ (mask_word_idem (REG32_read m.regs (PLIC_ENABLE P v hart)) v)]
  · simp only [unmask_interrupt, REG32_read_write_same, REG32_write_write]
    rw [REG32_write_congr _ _ _ _ (unmask_word_idem (REG32_read m.regs (PLIC_ENABLE P v hart)) v)]
  · have hv : v % 32 < 32 := Nat.mod_lt _ (by norm_num)
    simp [irq_enabled, unmask_interrupt, mask_interrupt, REG32_read_write_same,
      REG32_write_write, testBit_mod_word, Nat.testBit_or, testBit_shl32_one, hv]

/-- C8: for every vector `v` (bit position `v % 32` anywhere in 0..31, shifts and complements
taken with 32-bit wrap-around), the enable word of `v` is at
`PLIC_BASE_VIRT + 0x2000 + 0x80 * PLIC_HART_IDX(hart) + 4 * (v / 32)`; after `mask_interrupt v`
bit `v % 32` of that word is 0, after `unmask_interrupt v` it is 1, and both calls return
`NO_ERROR` whatever `v` is. -/
theorem C8_mask_unmask_postcondition (P : Platform) (hart v : Nat) (m : Machine P.NUM_IRQS) :
    PLIC_ENABLE P v hart =
        P.PLIC_BASE_VIRT + 0x2000 + 0x80 * P.PLIC_HART_IDX hart + 4 * (v / 32) ∧
      (mask_interrupt P hart v m).1 = status_t.NO_ERROR ∧
      (REG32_read (mask_interrupt P hart v m).2.regs (PLIC_ENABLE P v hart)).testBit (v % 32)
        = false ∧
      (unmask_interrupt P hart v m).1 = status_t.NO_ERROR ∧
      (REG32_read (unmask_interrupt P hart v m).2.regs (PLIC_ENABLE P v hart)).testBit (v % 32)
        = true := by
  have hv : v % 32 < 32 := Nat.mod_lt _ (by norm_num)
  refine ⟨rfl, rfl, ?_, rfl, ?_⟩
  · simp [mask_interrupt, REG32_read_write_same, testBit_mod_word, Nat.testBit_and,
      testBit_not32, testBit_shl32_one, hv]
  · simp [unmask_interrupt, REG32_read_write_same, testBit_mod_word, Nat.testBit_or,
      testBit_shl32_one, hv]

/-! ## Early initialisation -/

theorem early_init_loop_succ (P : Platform) (hart : Nat) (regs : Nat → Nat) (k : Nat) :
    (List.range' 1 (k + 1)).foldl (plic_early_init_body P hart) regs =
      plic_early_init_body P hart
        ((List.range' 1 k).foldl (plic_early_init_body P hart) regs) (1 + k) := by
  rw [List.range'_concat, List.foldl_append]
  simp

/-- After the first `k` iterations every priority register of a vector in `1..k` holds 1. -/
theorem early_init_loop_priority (P : Platform) (hart : Nat) (regs : Nat → Nat) (k : Nat)
    (hk : k < 2048) (i : Nat) (h1 : 1 ≤ i) (hi : i ≤ k) :
    ((List.range' 1 k).foldl (plic_early_init_body P hart) regs) (PLIC_PRIORITY P i) = 1 := by
  induction k with
  | zero => omega
  | succ k ih =>
    rw [early_init_loop_succ]
    by_cases hik : i = 1 + k
    · subst hik
      simp [plic_early_init_body, REG32_write]
    · have hne : PLIC_PRIORITY P i ≠ PLIC_PRIORITY P (1 + k) := by
        simp only [PLIC_PRIORITY]
        omega
      have hne2 : PLIC_PRIORITY P i ≠ PLIC_ENABLE P (1 + k) hart := by
        simp only [PLIC_PRIORITY, PLIC_ENABLE]
        omega
      have := ih (by omega) (by omega)
      simp [plic_early_init_body, REG32_write, hne, hne2, this]

/-- The first `k` iterations leave alone every word that is neither the priority register nor
the enable word of a vector in `1..k`. -/
theorem early_init_loop_frame (P : Platform) (hart : Nat) (regs : Nat → Nat) (k : Nat) (a : Nat)
    (hp : ∀ i, 1 ≤ i → i ≤ k → a ≠ PLIC_PRIORITY P i)
    (he : ∀ i, 1 ≤ i → i ≤ k → a ≠ PLIC_ENABLE P i hart) :
    ((List.range' 1 k).foldl (plic_early_init_body P hart) regs) a = regs a := by
  induction k with
  | zero => simp
  | succ k ih =>
    rw [early_init_loop_succ]
    have h1 := hp (1 + k) (by omega) (by omega)
    have h2 := he (1 + k) (by omega) (by omega)
    have := ih (fun i hi1 hi2 => hp i hi1 (by omega)) (fun i hi1 hi2 => he i hi1 (by omega))
    simp [plic_early_init_body, REG32_write, h1, h2, this]

/-- After the first `k` iterations, bit `b` of the `j`-th enable word of the hart is cleared when
it is the bit of a vector in `1..k` and is as before otherwise. -/
theorem early_init_loop_enable (P : Platform) (hart : Nat) (regs : Nat → Nat) (k : Nat)
    (hk : k < 2048) (j b : Nat) (hb : b < 32) :
    (REG32_read ((List.range' 1 k).foldl (plic_early_init_body P hart) regs)
        (PLIC_ENABLE P (32 * j) hart)).testBit b =
      ((REG32_read regs (PLIC_ENABLE P (32 * j) hart)).testBit b &&
        !decide (1 ≤ 32 * j + b ∧ 32 * j + b ≤ k)) := by
  induction k with
  | zero =>
    have e0 : decide (1 ≤ 32 * j + b ∧ 32 * j + b ≤ 0) = false := decide_eq_false (by omega)
    rw [e0]
    simp
  | succ k ih =>
    rw [early_init_loop_succ]
    have ih := ih (by omega)
    have hne : PLIC_ENABLE P (32 * j) hart ≠ PLIC_PRIORITY P (1 + k) := by
      simp only [PLIC_PRIORITY, PLIC_ENABLE]
      omega
    have e1 : decide (b < 32) = true := decide_eq_true hb
    simp only [plic_early_init_body]
    rw [REG32_read_write_other _ _ _ _ hne]
    by_cases hj : (1 + k) / 32 = j
    · have haddr : PLIC_ENABLE P (1 + k) hart = PLIC_ENABLE P (32 * j) hart := by
        simp only [PLIC_ENABLE]
        omega
      rw [haddr, REG32_read_write_same, Nat.testBit_mod_two_pow, Nat.testBit_and, testBit_not32,
        testBit_shl32_one, ih, e1]
      generalize (REG32_read regs (PLIC_ENABLE P (32 * j) hart)).testBit b = X
      by_cases hbit : (1 + k) % 32 = b
      · have e2 : decide ((1 + k) % 32 = b) = true := decide_eq_true hbit
        have e3 : decide (1 ≤ 32 * j + b ∧ 32 * j + b ≤ k) = false :=
          decide_eq_false (by omega)
        have e4 : decide (1 ≤ 32 * j + b ∧ 32 * j + b ≤ k + 1) = true :=
          decide_eq_true (by omega)
        rw [e2, e3, e4]
        cases X <;> rfl
      · have e2 : decide ((1 + k) % 32 = b) = false := decide_eq_false hbit
        have e3 : decide (1 ≤ 32 * j + b ∧ 32 * j + b ≤ k + 1) =
            decide (1 ≤ 32 * j + b ∧ 32 * j + b ≤ k) :=
          decide_eq_decide.mpr (by omega)
        rw [e2, e3]
        cases X <;> cases decide (1 ≤ 32 * j + b ∧ 32 * j + b ≤ k) <;> rfl
    · have haddr : PLIC_ENABLE P (32 * j) hart ≠ PLIC_ENABLE P (1 + k) hart := by
        simp only [PLIC_ENABLE]
        omega
      have e3 : decide (1 ≤ 32 * j + b ∧ 32 * j + b ≤ k + 1) =
          decide (1 ≤ 32 * j + b ∧ 32 * j + b ≤ k) :=
        decide_eq_decide.mpr (by omega)
      rw [REG32_read_write_other _ _ _ _ haddr, ih, e3]

/-- Why C9 bounds `NUM_IRQS`: with 2049 vectors the last iteration stores priority 1 into the
first enable word of context 0, so vector 0 ends up enabled whatever the registers held. -/
theorem early_init_priority_aliases_enable (regs : Nat → Nat) :
    irq_enabled wide_platform 0 (plic_early_init_regs wide_platform 0 regs) 0 = true := by
  have hT : PLIC_ENABLE wide_platform 0 0 ≠ PLIC_THRESHOLD wide_platform 0 := by decide
  have hA : PLIC_ENABLE wide_platform 0 0 = PLIC_PRIORITY wide_platform (1 + 2047) := by decide
  have hloop : (List.range' 1 (wide_platform.NUM_IRQS - 1)).foldl
      (plic_early_init_body wide_platform 0) regs =
      plic_early_init_body wide_platform 0
        ((List.range' 1 2047).foldl (plic_early_init_body wide_platform 0) regs) (1 + 2047) :=
    early_init_loop_succ wide_platform 0 regs 2047
  simp only [irq_enabled, plic_early_init_regs]
  rw [REG32_read_write_other _ _ _ _ hT, hloop]
  simp only [plic_early_init_body]
  rw [hA, REG32_read_write_same]
  decide

/-- C9: on a platform whose priority registers lie below the enable banks
(`NUM_IRQS ≤ 2048`, the priority array ending before offset `0x2000`), after `plic_early_init`
every vector `v` with `1 ≤ v < NUM_IRQS` has its enable bit for the current hart cleared and its
priority register equal to 1, the threshold register of the current hart holds 0, and the enable
bit and the priority register of vector 0 are as they were. -/
theorem C9_early_init_postcondition (P : Platform) (hart : Nat) (m : Machine P.NUM_IRQS)
    (hN : P.NUM_IRQS ≤ 2048) :
    (∀ v, 1 ≤ v → v < P.NUM_IRQS →
        irq_enabled P hart (plic_early_init P hart m).regs v = false ∧
        REG32_read (plic_early_init P hart m).regs (PLIC_PRIORITY P v) = 1) ∧
      REG32_read (plic_early_init P hart m).regs (PLIC_THRESHOLD P hart) = 0 ∧
      irq_enabled P hart (plic_early_init P hart m).regs 0 = irq_enabled P hart m.regs 0 ∧
      (plic_early_init P hart m).regs (PLIC_PRIORITY P 0) = m.regs (PLIC_PRIORITY P 0) := by
  have hk : P.NUM_IRQS - 1 < 2048 := by omega
  refine ⟨?_, ?_, ?_, ?_⟩
  · intro v hv1 hvN
    have hT : PLIC_ENABLE P v hart ≠ PLIC_THRESHOLD P hart := by
      simp only [PLIC_ENABLE, PLIC_THRESHOLD]
      omega
    have hT2 : PLIC_PRIORITY P v ≠ PLIC_THRESHOLD P hart := by
      simp only [PLIC_PRIORITY, PLIC_THRESHOLD]
      omega
    have haddr : PLIC_ENABLE P v hart = PLIC_ENABLE P (32 * (v / 32)) hart := by
      simp only [PLIC_ENABLE]
      omega
    have hb : v % 32 < 32 := Nat.mod_lt _ (by norm_num)
    have e : decide (1 ≤ 32 * (v / 32) + v % 32 ∧ 32 * (v / 32) + v % 32 ≤ P.NUM_IRQS - 1)
        = true := decide_eq_true (by omega)
    constructor
    · simp only [irq_enabled, plic_early_init, plic_early_init_regs]
      rw [REG32_read_write_other _ _ _ _ hT, haddr,
        early_init_loop_enable P hart m.regs _ hk (v / 32) (v % 32) hb, e]
      simp
    · simp only [plic_early_init, plic_early_init_regs]
      rw [REG32_read_write_other _ _ _ _ hT2]
      simp only [REG32_read]
      rw [early_init_loop_priority P hart m.regs _ hk v hv1 (by omega)]
      norm_num
  · simp [plic_early_init, plic_early_init_regs, REG32_read_write_same]
  · have hT : PLIC_ENABLE P 0 hart ≠ PLIC_THRESHOLD P hart := by
      simp only [PLIC_ENABLE, PLIC_THRESHOLD]
      omega
    have e : decide (1 ≤ 32 * 0 + 0 ∧ 32 * 0 + 0 ≤ P.NUM_IRQS - 1) = false :=
      decide_eq_false (by omega)
    have h := early_init_loop_enable P hart m.regs _ hk 0 0 (by norm_num)
    rw [e] at h
    simp only [irq_enabled, plic_early_init, plic_early_init_regs]
    rw [REG32_read_write_other _ _ _ _ hT]
    simpa using h
  · have hT : PLIC_PRIORITY P 0 ≠ PLIC_THRESHOLD P hart := by
      simp only [PLIC_PRIORITY, PLIC_THRESHOLD]
      omega
    simp only [plic_early_init, plic_early_init_regs, REG32_write, if_neg hT]
    apply early_init_loop_frame
    · intro i h1 _
      simp only [PLIC_PRIORITY]
      omega
    · intro i _ _
      simp only [PLIC_PRIORITY, PLIC_ENABLE]
      omega

/-- An instance of C9 on the 64-vector platform, hart 0. -/
theorem C9_early_init_postcondition_witness :
    (∀ v, 1 ≤ v → v < virt64.NUM_IRQS →
        irq_enabled virt64 0 (plic_early_init virt64 0 (machine_claiming 0 ⟨7, 9⟩)).regs v
          = false ∧
        REG32_read (plic_early_init virt64 0 (machine_claiming 0 ⟨7, 9⟩)).regs
          (PLIC_PRIORITY virt64 v) = 1) ∧
      REG32_read (plic_early_init virt64 0 (machine_claiming 0 ⟨7, 9⟩)).regs
        (PLIC_THRESHOLD virt64 0) = 0 ∧
      irq_enabled virt64 0 (plic_early_init virt64 0 (machine_claiming 0 ⟨7, 9⟩)).regs 0 =
        irq_enabled virt64 0 (machine_claiming 0 ⟨7, 9⟩).regs 0 ∧
      (plic_early_init virt64 0 (machine_claiming 0 ⟨7, 9⟩)).regs (PLIC_PRIORITY virt64 0) =
        (machine_claiming 0 ⟨7, 9⟩).regs (PLIC_PRIORITY virt64 0) :=
  C9_early_init_postcondition virt64 0 (machine_claiming 0 ⟨7, 9⟩) (by decide)

/-! ## The slot of vector 0 -/

theorem word_update_comp (A B A' B' x : Nat) :
    word_update A B (word_update A' B' x) = word_update (A' &&& A) ((B' &&& A) ||| B) x := by
  apply Nat.eq_of_testBit_eq
  intro i
  simp only [word_update, Nat.testBit_or, Nat.testBit_and]
  cases x.testBit i <;> cases A.testBit i <;> cases B.testBit i <;> cases A'.testBit i <;>
    cases B'.testBit i <;> rfl

theorem word_update_idem (A B x : Nat) :
    word_update A B (word_update A B x) = word_update A B x := by
  apply Nat.eq_of_testBit_eq
  intro i
  simp only [word_update, Nat.testBit_or, Nat.testBit_and]
  cases x.testBit i <;> cases A.testBit i <;> cases B.testBit i <;> rfl

theorem mask_store_is_word_update (x k : Nat) :
    (x % 2 ^ 32 &&& not32 (shl32 1 (k % 32))) % 2 ^ 32 =
      word_update (not32 (shl32 1 (k % 32))) 0 x := by
  apply Nat.eq_of_testBit_eq
  intro i
  simp only [word_update, Nat.testBit_or, Nat.testBit_and, Nat.testBit_mod_two_pow,
    testBit_not32, testBit_shl32_one, Nat.zero_testBit]
  cases x.testBit i <;> cases decide (i < 32) <;> cases decide (k % 32 = i) <;> rfl

/-- One loop iteration acts on each word separately: it leaves the word alone or applies a
`word_update` that does not depend on the register contents. -/
theorem early_init_body_pointwise (P : Platform) (hart i a : Nat) :
    (∀ regs, plic_early_init_body P hart regs i a = regs a) ∨
      ∃ A B, ∀ regs, plic_early_init_body P hart regs i a = word_update A B (regs a) := by
  by_cases hp : a = PLIC_PRIORITY P i
  · refine Or.inr ⟨0, 1, fun regs => ?_⟩
    simp [plic_early_init_body, REG32_write, hp, word_update]
  · by_cases he : a = PLIC_ENABLE P i hart
    · refine Or.inr ⟨not32 (shl32 1 (i % 32)), 0, fun regs => ?_⟩
      rw [← mask_store_is_word_update]
      simp only [plic_early_init_body, REG32_write, REG32_read, if_neg hp, if_pos he]
      rw [he]
    · refine Or.inl fun regs => ?_
      simp only [plic_early_init_body, REG32_write, if_neg hp, if_neg he]

/-- The whole loop acts on each word separately. -/
theorem early_init_loop_pointwise (P : Platform) (hart : Nat) (l : List Nat) (a : Nat) :
    (∀ regs, l.foldl (plic_early_init_body P hart) regs a = regs a) ∨
      ∃ A B, ∀ regs, l.foldl (plic_early_init_body P hart) regs a = word_update A B (regs a) := by
  induction l with
  | nil => exact Or.inl fun regs => rfl
  | cons i l ih =>
    rcases ih with hid | ⟨A, B, hAB⟩
    · rcases early_init_body_pointwise P hart i a with hb | ⟨A', B', hb⟩
      · exact Or.inl fun regs => by rw [List.foldl_cons, hid, hb]
      · exact Or.inr ⟨A', B', fun regs => by rw [List.foldl_cons, hid, hb]⟩
    · rcases early_init_body_pointwise P hart i a with hb | ⟨A', B', hb⟩
      · exact Or.inr ⟨A, B, fun regs => by rw [List.foldl_cons, hAB, hb]⟩
      · exact Or.inr ⟨A' &&& A, (B' &&& A) ||| B, fun regs => by
          rw [List.foldl_cons, hAB, hb, word_update_comp]⟩

/-- The register effect of `plic_early_init` acts on each word separately. -/
theorem early_init_regs_pointwise (P : Platform) (hart a : Nat) :
    (∀ regs, plic_early_init_regs P hart regs a = regs a) ∨
      ∃ A B, ∀ regs, plic_early_init_regs P hart regs a = word_update A B (regs a) := by
  by_cases ht : a = PLIC_THRESHOLD P hart
  · refine Or.inr ⟨0, 0, fun regs => ?_⟩
    simp [plic_early_init_regs, REG32_write, ht, word_update]
  · rcases early_init_loop_pointwise P hart (List.range' 1 (P.NUM_IRQS - 1)) a with h | ⟨A, B, h⟩
    · refine Or.inl fun regs => ?_
      simp only [plic_early_init_regs, REG32_write, if_neg ht]
      exact h regs
    · refine Or.inr ⟨A, B, fun regs => ?_⟩
      simp only [plic_early_init_regs, REG32_write, if_neg ht]
      exact h regs

/-- C11: for every state and fixed current hart, `plic_early_init` run twice in succession gives
exactly the state one run gives, and a run leaves the handler table as it was. -/
theorem C11_early_init_idempotent (P : Platform) (hart : Nat) (m : Machine P.NUM_IRQS) :
    plic_early_init P hart (plic_early_init P hart m) = plic_early_init P hart m ∧
      (plic_early_init P hart m).handlers = m.handlers := by
  refine ⟨?_, rfl⟩
  have hregs : plic_early_init_regs P hart (plic_early_init_regs P hart m.regs) =
      plic_early_init_regs P hart m.regs := by
    funext a
    rcases early_init_regs_pointwise P hart a with h | ⟨A, B, h⟩
    · rw [h]
    · rw [h, h, word_update_idem]
  simp only [plic_early_init, hregs]

/-! ## Register layout and frames -/

/-- Why C12 and C15 bound `NUM_IRQS` by 1024: a context's enable bank is `0x80` bytes, 32 words,
so the word of vector 1024 of one context is the first enable word of the next context. -/
theorem enable_bank_runs_into_next_context (P : Platform) (h h' : Nat)
    (hidx : P.PLIC_HART_IDX h' = P.PLIC_HART_IDX h + 1) :
    PLIC_ENABLE P 1024 h = PLIC_ENABLE P 0 h' := by
  simp only [PLIC_ENABLE, hidx]
  omega

/-- Why C12 and C15 bound the context index: the enable banks reach the threshold registers at
context 16320. -/
theorem enable_bank_runs_into_threshold (P : Platform) (h h' : Nat)
    (hidx : P.PLIC_HART_IDX h' = 16320 + 32 * P.PLIC_HART_IDX h) :
    PLIC_ENABLE P 0 h' = PLIC_THRESHOLD P h := by
  simp only [PLIC_ENABLE, PLIC_THRESHOLD, hidx]
  omega

/-- C12: on a platform within the capacity of the register layout (`NUM_IRQS ≤ 1024` vectors,
context indices below 15872), `plic_early_init` run on `hart` leaves alone the enable word of
every vector `v < NUM_IRQS` and the threshold register of every hart `h'` whose context index
differs from that of `hart`. -/
theorem C12_early_init_other_harts (P : Platform) (hart h' v : Nat) (m : Machine P.NUM_IRQS)
    (hN : P.NUM_IRQS ≤ 1024)
    (hc : P.PLIC_HART_IDX hart < 15872) (hc' : P.PLIC_HART_IDX h' < 15872)
    (hne : P.PLIC_HART_IDX h' ≠ P.PLIC_HART_IDX hart)
    (hv : v < P.NUM_IRQS) :
    (plic_early_init P hart m).regs (PLIC_ENABLE P v h') = m.regs (PLIC_ENABLE P v h') ∧
      (plic_early_init P hart m).regs (PLIC_THRESHOLD P h') = m.regs (PLIC_THRESHOLD P h') := by
  have hT1 : PLIC_ENABLE P v h' ≠ PLIC_THRESHOLD P hart := by
    simp only [PLIC_ENABLE, PLIC_THRESHOLD]
    omega
  have hT2 : PLIC_THRESHOLD P h' ≠ PLIC_THRESHOLD P hart := by
    simp only [PLIC_THRESHOLD]
    omega
  constructor
  · simp only [plic_early_init, plic_early_init_regs, REG32_write, if_neg hT1]
    apply early_init_loop_frame
    · intro i _ hi
      simp only [PLIC_ENABLE, PLIC_PRIORITY]
      omega
    · intro i _ hi
      simp only [PLIC_ENABLE]
      omega
  · simp only [plic_early_init, plic_early_init_regs, REG32_write, if_neg hT2]
    apply early_init_loop_frame
    · intro i _ hi
      simp only [PLIC_THRESHOLD, PLIC_PRIORITY]
      omega
    · intro i _ hi
      simp only [PLIC_THRESHOLD, PLIC_ENABLE]
      omega

/-- An instance of C12: initialising hart 0 of the 64-vector platform leaves the enable word of
vector 5 and the threshold of hart 1 alone. -/
theorem C12_early_init_other_harts_witness :
    (plic_early_init virt64 0 (machine_claiming 0 ⟨7, 9⟩)).regs (PLIC_ENABLE virt64 5 1) =
        (machine_claiming 0 ⟨7, 9⟩).regs (PLIC_ENABLE virt64 5 1) ∧
      (plic_early_init virt64 0 (machine_claiming 0 ⟨7, 9⟩)).regs (PLIC_THRESHOLD virt64 1) =
        (machine_claiming 0 ⟨7, 9⟩).regs (PLIC_THRESHOLD virt64 1) :=
  C12_early_init_other_harts virt64 0 1 5 (machine_claiming 0 ⟨7, 9⟩)
    (by decide) (by decide) (by decide) (by decide) (by decide)

/-! ## Capability stubs -/

/-- C13: for every `pci_int`, `platform_pci_int_to_vector` returns `NO_ERROR` and leaves
`pci_int` in `*vector`, whatever `*vector` held; the driver state is untouched. -/
theorem C13_pci_int_to_vector_identity {n : Nat} (pci_int vector : Nat) (m : Machine n) :
    (platform_pci_int_to_vector pci_int vector m).1 = status_t.NO_ERROR ∧
      (platform_pci_int_to_vector pci_int vector m).2.1 = pci_int ∧
      (platform_pci_int_to_vector pci_int vector m).2.2 = m :=
  ⟨rfl, rfl, rfl⟩

/-- C14: for all arguments, `platform_allocate_interrupts` and `platform_compute_msi_values`
return `ERR_NOT_SUPPORTED`, leave their output cells as they were, and leave the driver state
(handler table and registers) as it was. -/
theorem C14_msi_stubs_not_supported {n : Nat} (count align_log2 : Nat) (msi : Bool)
    (vector_out : Nat) (vector cpu : Nat) (edge : Bool) (msi_address_out msi_data_out : Nat)
    (m : Machine n) :
    platform_allocate_interrupts count align_log2 msi vector_out m =
        (status_t.ERR_NOT_SUPPORTED, vector_out, m) ∧
      platform_compute_msi_values vector cpu edge msi_address_out msi_data_out m =
        (status_t.ERR_NOT_SUPPORTED, msi_address_out, msi_data_out, m) :=
  ⟨rfl, rfl⟩

/-! ## Disjointness of the register layout -/

/-- C15: on a platform within the capacity of the register layout (`NUM_IRQS ≤ 1024` vectors,
the context index of `h1` below 15872), two harts `h1`, `h2` with different context indices have
different enable words for all vectors `v, w < NUM_IRQS`, different threshold registers and
different claim/complete registers; and an enable word of `h1` is never a priority or pending
word of a vector below `NUM_IRQS`, nor the threshold or claim/complete register of any hart. -/
theorem C15_register_layout_disjoint (P : Platform) (h1 h2 v w : Nat)
    (hN : P.NUM_IRQS ≤ 1024)
    (hc1 : P.PLIC_HART_IDX h1 < 15872)
    (hne : P.PLIC_HART_IDX h1 ≠ P.PLIC_HART_IDX h2)
    (hv : v < P.NUM_IRQS) (hw : w < P.NUM_IRQS) :
    PLIC_ENABLE P v h1 ≠ PLIC_ENABLE P w h2 ∧
      PLIC_THRESHOLD P h1 ≠ PLIC_THRESHOLD P h2 ∧
      PLIC_COMPLETE P h1 ≠ PLIC_COMPLETE P h2 ∧
      PLIC_CLAIM P h1 ≠ PLIC_CLAIM P h2 ∧
      (∀ i, i < P.NUM_IRQS → PLIC_ENABLE P v h1 ≠ PLIC_PRIORITY P i) ∧
      (∀ i, i < P.NUM_IRQS → PLIC_ENABLE P v h1 ≠ PLIC_PENDING P i) ∧
      (∀ h, PLIC_ENABLE P v h1 ≠ PLIC_THRESHOLD P h) ∧
      (∀ h, PLIC_ENABLE P v h1 ≠ PLIC_COMPLETE P h) ∧
      (∀ h, PLIC_ENABLE P v h1 ≠ PLIC_CLAIM P h) := by
  refine ⟨?_, ?_, ?_, ?_, ?_, ?_, ?_, ?_, ?_⟩
  · simp only [PLIC_ENABLE]
    omega
  · simp only [PLIC_THRESHOLD]
    omega
  · simp only [PLIC_COMPLETE]
    omega
  · simp only [PLIC_CLAIM, PLIC_COMPLETE]
    omega
  · intro i hi
    simp only [PLIC_ENABLE, PLIC_PRIORITY]
    omega
  · intro i hi
    simp only [PLIC_ENABLE, PLIC_PENDING]
    omega
  · intro h
    simp only [PLIC_ENABLE, PLIC_THRESHOLD]
    omega
  · intro h
    simp only [PLIC_ENABLE, PLIC_COMPLETE]
    omega
  · intro h
    simp only [PLIC_ENABLE, PLIC_CLAIM, PLIC_COMPLETE]
    omega

/-- An instance of C15: harts 0 and 1 of the 64-vector platform, vectors 5 and 37. -/
theorem C15_register_layout_disjoint_witness :
    PLIC_ENABLE virt64 5 0 ≠ PLIC_ENABLE virt64 37 1 ∧
      PLIC_THRESHOLD virt64 0 ≠ PLIC_THRESHOLD virt64 1 ∧
      PLIC_COMPLETE virt64 0 ≠ PLIC_COMPLETE virt64 1 ∧
      PLIC_CLAIM virt64 0 ≠ PLIC_CLAIM virt64 1 ∧
      (∀ i, i < virt64.NUM_IRQS → PLIC_ENABLE virt64 5 0 ≠ PLIC_PRIORITY virt64 i) ∧
      (∀ i, i < virt64.NUM_IRQS → PLIC_ENABLE virt64 5 0 ≠ PLIC_PENDING virt64 i) ∧
      (∀ h, PLIC_ENABLE virt64 5 0 ≠ PLIC_THRESHOLD virt64 h) ∧
      (∀ h, PLIC_ENABLE virt64 5 0 ≠ PLIC_COMPLETE virt64 h) ∧
      (∀ h, PLIC_ENABLE virt64 5 0 ≠ PLIC_CLAIM virt64 h) :=
  C15_register_layout_disjoint virt64 0 1 5 37
    (by decide) (by decide) (by decide) (by decide) (by decide)

/-! ## Frame of mask and unmask -/

theorem mask_bit_other (r k b : Nat) (hb : b < 32) (hne : b ≠ k % 32) :
    ((r &&& not32 (shl32 1 (k % 32))) % 2 ^ 32).testBit b = r.testBit b := by
  have e1 : decide (b < 32) = true := decide_eq_true hb
  have e2 : decide (k % 32 = b) = false := decide_eq_false (fun h => hne h.symm)
  rw [Nat.testBit_mod_two_pow, Nat.testBit_and, testBit_not32, testBit_shl32_one, e1, e2]
  cases r.testBit b <;> rfl

theorem unmask_bit_other (r k b : Nat) (hb : b < 32) (hne : b ≠ k % 32) :
    ((r ||| shl32 1 (k % 32)) % 2 ^ 32).testBit b = r.testBit b := by
  have e1 : decide (b < 32) = true := decide_eq_true hb
  have e2 : decide (k % 32 = b) = false := decide_eq_false (fun h => hne h.symm)
  rw [Nat.testBit_mod_two_pow, Nat.testBit_or, testBit_shl32_one, e1, e2]
  cases r.testBit b <;> rfl

/-- The enable bit of `w` read through a store to the enable word of another vector `v` of the
same hart, when the store keeps every bit but bit `v % 32` of the word it replaces. -/
theorem irq_enabled_store_other (P : Platform) (hart v w x : Nat) (regs : Nat → Nat)
    (hwv : w ≠ v)
    (hx : ∀ b, b < 32 → b ≠ v % 32 →
      (x % 2 ^ 32).testBit b = (REG32_read regs (PLIC_ENABLE P v hart)).testBit b) :
    irq_enabled P hart (REG32_write regs (PLIC_ENABLE P v hart) x) w =
      irq_enabled P hart regs w := by
  have hb : w % 32 < 32 := Nat.mod_lt _ (by norm_num)
  unfold irq_enabled
  by_cases hw : w / 32 = v / 32
  · have haddr : PLIC_ENABLE P w hart = PLIC_ENABLE P v hart := by
      simp only [PLIC_ENABLE, hw]
    rw [haddr, REG32_read_write_same]
    exact hx (w % 32) hb (by omega)
  · have haddr : PLIC_ENABLE P w hart ≠ PLIC_ENABLE P v hart := by
      simp only [PLIC_ENABLE]
      omega
    rw [REG32_read_write_other _ _ _ _ haddr]

/-- C16: for every vector `v` and state, `mask_interrupt v` and `unmask_interrupt v` leave every
word other than the one at `PLIC_ENABLE(v, hart)` as it was, leave every bit of that word other
than bit `v % 32` as it was, and leave the handler table as it was; so the enabled state of every
vector `w ≠ v` on the current hart is the same before and after the call. -/
theorem C16_mask_unmask_frame (P : Platform) (hart v : Nat) (m : Machine P.NUM_IRQS) :
    ((∀ a, a ≠ PLIC_ENABLE P v hart → (mask_interrupt P hart v m).2.regs a = m.regs a) ∧
      (∀ b, b < 32 → b ≠ v % 32 →
        (REG32_read (mask_interrupt P hart v m).2.regs (PLIC_ENABLE P v hart)).testBit b =
          (REG32_read m.regs (PLIC_ENABLE P v hart)).testBit b) ∧
      (mask_interrupt P hart v m).2.handlers = m.handlers ∧
      (∀ w, w ≠ v →
        irq_enabled P hart (mask_interrupt P hart v m).2.regs w = irq_enabled P hart m.regs w)) ∧
    ((∀ a, a ≠ PLIC_ENABLE P v hart → (unmask_interrupt P hart v m).2.regs a = m.regs a) ∧
      (∀ b, b < 32 → b ≠ v % 32 →
        (REG32_read (unmask_interrupt P hart v m).2.regs (PLIC_ENABLE P v hart)).testBit b =
          (REG32_read m.regs (PLIC_ENABLE P v hart)).testBit b) ∧
      (unmask_interrupt P hart v m).2.handlers = m.handlers ∧
      (∀ w, w ≠ v →
        irq_enabled P hart (unmask_interrupt P hart v m).2.regs w =
          irq_enabled P hart m.regs w)) := by
  refine ⟨⟨?_, ?_, rfl, ?_⟩, ⟨?_, ?_, rfl, ?_⟩⟩
  · intro a ha
    simp only [mask_interrupt, REG32_write, if_neg ha]
  · intro b hb hne
    simp only [mask_interrupt]
    rw [REG32_read_write_same]
    exact mask_bit_other _ v b hb hne
  · intro w hwv
    simp only [mask_interrupt]
    exact irq_enabled_store_other P hart v w _ m.regs hwv
      (fun b hb hne => mask_bit_other _ v b hb hne)
  · intro a ha
    simp only [unmask_interrupt, REG32_write, if_neg ha]
  · intro b hb hne
    simp only [unmask_interrupt]
    rw [REG32_read_write_same]
    exact unmask_bit_other _ v b hb hne
  · intro w hwv
    simp only [unmask_interrupt]
    exact irq_enabled_store_other P hart v w _ m.regs hwv
      (fun b hb hne => unmask_bit_other _ v b hb hne)

/-! ## Table access in dispatch -/

/-- C17: `riscv_platform_irq` indexes `handlers[vector]` with the claimed value as it is, with no
range check: for a non-zero claim `v` the table read, and with it the call, is defined exactly
when `v < NUM_IRQS`; for `0 < v < NUM_IRQS` the call completes with a hint and exactly one
register store, of `v` to the complete register. -/
theorem C17_dispatch_table_access (P : Platform) (code : HandlerCode P.NUM_IRQS)
    (hart : Nat) (m : Machine P.NUM_IRQS) (v : Nat)
    (hclaim : REG32_read m.regs (PLIC_CLAIM P hart) = v) (hv0 : 0 < v) :
    ((handlers_at m v).isSome = true ↔ v < P.NUM_IRQS) ∧
      ((riscv_platform_irq P code hart m).isSome = true ↔ v < P.NUM_IRQS) ∧
      (v < P.NUM_IRQS →
        ∃ r m' t, riscv_platform_irq P code hart m = some (r, m', t) ∧
          reg_writes t = [(PLIC_COMPLETE P hart, v)]) := by
  have hne : ¬ v = 0 := by omega
  refine ⟨?_, ?_, ?_⟩
  · by_cases hv : v < P.NUM_IRQS <;> simp [handlers_at, hv]
  · by_cases hv : v < P.NUM_IRQS
    · by_cases hh : (m.handlers ⟨v, hv⟩).handler = 0 <;>
        simp [riscv_platform_irq, hclaim, hne, handlers_at, hv, hh]
    · simp [riscv_platform_irq, hclaim, hne, handlers_at, hv]
  · intro hv
    by_cases hh : (m.handlers ⟨v, hv⟩).handler = 0
    · exact ⟨handler_return.INT_NO_RESCHEDULE,
        { m with regs := REG32_write m.regs (PLIC_COMPLETE P hart) v }, _,
        by simp [riscv_platform_irq, hclaim, hne, handlers_at, hv, hh]; rfl,
        by simp [reg_writes]⟩
    · exact ⟨(code (m.handlers ⟨v, hv⟩).handler (m.handlers ⟨v, hv⟩).arg m).1,
        { (code (m.handlers ⟨v, hv⟩).handler (m.handlers ⟨v, hv⟩).arg m).2 with
          regs := REG32_write (code (m.handlers ⟨v, hv⟩).handler (m.handlers ⟨v, hv⟩).arg m).2.regs
            (PLIC_COMPLETE P hart) v }, _,
        by simp [riscv_platform_irq, hclaim, hne, handlers_at, hv, hh]; rfl,
        by simp [reg_writes]⟩

/-- An instance of C17: claim reads 5 on the 64-vector platform. -/
theorem C17_dispatch_table_access_witness :
    ((handlers_at (machine_claiming 5 ⟨7, 9⟩) 5).isSome = true ↔ 5 < virt64.NUM_IRQS) ∧
      ((riscv_platform_irq virt64 code_resched 0 (machine_claiming 5 ⟨7, 9⟩)).isSome = true ↔
        5 < virt64.NUM_IRQS) ∧
      (5 < virt64.NUM_IRQS →
        ∃ r m' t, riscv_platform_irq virt64 code_resched 0 (machine_claiming 5 ⟨7, 9⟩) =
            some (r, m', t) ∧
          reg_writes t = [(PLIC_COMPLETE virt64 0, 5)]) :=
  C17_dispatch_table_access virt64 code_resched 0 (machine_claiming 5 ⟨7, 9⟩) 5
    (by simp [REG32_read, machine_claiming]) (by decide)

end Plic
